import Mathlib

/-!
Verification of the ICON-CH1 data-fetch pipeline (`src/fetch_data.py`).

This file gives a shallow embedding of the pure/decidable core of the
pipeline — artifact naming, cache checks, run discovery, the per-horizon
driver loop, vertical-height computation, the grid locator, coordinate-name
resolution, and the retention cleanup — and proves or refutes the spec's
claims about it.

Modelling conventions:
* file-system paths are represented as their `os.path.join` component lists
  (`List String`), and the cache as the list of existing paths;
* floating-point grid values are modelled as rationals (`ℚ`);
* wall-clock instants and modification times are seconds since the Unix
  epoch (`Int`), with calendar conversion done by a proleptic-Gregorian
  `days_from_civil`;
* provider interaction (`ogd_api.get_asset_urls`, asset downloads) is a
  parameter of the driver model: a function from variable and horizon to
  a URL list, plus a flag for whether a usable data variable was decoded.
-/

namespace FetchData

/-- Python `f"{n:02d}"`: the decimal digits of `n`, left-padded with `0`
to a minimum width of two. -/
def pad2 (n : Nat) : String :=
  (if n < 10 then "0" else "") ++ Nat.repr n

/-- `sanitize_name` (src/fetch_data.py lines 60-66): spell out the German
umlauts and `ß`, then keep only alphanumeric characters, dashes and
underscores; an empty result becomes `"unnamed"`.  The Python `str.isalnum`
is Unicode-aware; it is modelled here by `Char.isAlphanum`, which agrees
with it on ASCII data (the umlauts, the only non-ASCII characters the
repository's location names use, have already been folded away). -/
def sanitize_name (name : String) : String :=
  let folded := String.join (name.data.map (fun c =>
    if c = 'ü' then "ue" else if c = 'ö' then "oe" else if c = 'ä' then "ae"
    else if c = 'Ü' then "Ue" else if c = 'Ö' then "Oe" else if c = 'Ä' then "Ae"
    else if c = 'ß' then "ss" else String.mk [c]))
  let clean := String.mk (folded.data.filter (fun c => c.isAlphanum || c == '-' || c == '_'))
  if clean = "" then "unnamed" else clean

/-- Cache root for point-trace artifacts (src line 35). -/
def CACHE_DIR_TRACES : String := "cache_data"

/-- Cache root for wind-map artifacts (src line 36). -/
def CACHE_DIR_MAPS : String := "cache_wind"

/-- Trace artifact path, as its `os.path.join` component list:
`cache_data/<time_tag>/<sanitize_name name>/H<h:02d>.nc`
(src lines 196, 209-213, 475). -/
def tracePath (time_tag name : String) (h : Nat) : List String :=
  [CACHE_DIR_TRACES, time_tag, sanitize_name name, "H" ++ pad2 h ++ ".nc"]

/-- Wind-map artifact path, as its `os.path.join` component list:
`cache_wind/<time_tag>/wind_maps_H<h:02d>.nc` (src lines 197, 242-244, 479). -/
def mapPath (time_tag : String) (h : Nat) : List String :=
  [CACHE_DIR_MAPS, time_tag, "wind_maps_H" ++ pad2 h ++ ".nc"]

/-- The cache: the list of artifact paths that currently exist on disk. -/
abbrev Cache := List (List String)

/-- `is_run_complete_locally` (src lines 192-198): a run counts as fully
processed when the trace artifact of the *last* configured location at the
maximum horizon exists, and the wind-map artifact at the maximum horizon
exists.  `locations` is the ordered list of location names
(`list(locations.keys())`); Python indexes it with `[-1]`, which raises on
an empty dict — the model is used with nonempty location lists. -/
def is_run_complete_locally (cache : Cache) (time_tag : String)
    (locations : List String) (max_h : Nat) : Bool :=
  cache.contains (tracePath time_tag (locations.getLastD "") max_h) &&
  cache.contains (mapPath time_tag max_h)

/-! ### Run discovery (src/fetch_data.py `main`, lines 363-426) -/

/-- Result of one `ogd_api.get_asset_urls` call during probing: either the
call raised, or it returned a (possibly empty) URL list. -/
inductive Probe where
  | raised : Probe
  | urls : List String → Probe
deriving DecidableEq

/-- Environment of the discovery loop: per candidate (identified by its
position-independent id), whether it is fully cached locally, and the
outcomes of the horizon-0 and maximum-horizon availability probes. -/
structure DiscoveryEnv where
  complete : Nat → Bool
  probeStart : Nat → Probe
  probeEnd : Nat → Probe

/-- Terminal outcome of discovery. -/
inductive Outcome where
  | selected : Nat → Outcome
  | nothingNew : Outcome
deriving DecidableEq

/-- The discovery loop over the candidate list (newest first), mirroring
src lines 373-426.  `first` records whether the current candidate is
`targets[0]`: a locally complete newest candidate returns immediately
(src line 382), an older complete one is skipped (src line 383).  A raised
probe is caught and treated as not-ready (src lines 415-421); note that
the end-horizon probe only runs if the start-horizon probe returned. -/
def discover (env : DiscoveryEnv) : List Nat → Bool → Outcome
  | [], _ => .nothingNew
  | c :: rest, first =>
    if env.complete c then
      if first then .nothingNew else discover env rest false
    else
      match env.probeStart c with
      | .raised => discover env rest false
      | .urls us =>
        match env.probeEnd c with
        | .raised => discover env rest false
        | .urls ue =>
          if us ≠ [] ∧ ue ≠ [] then .selected c else discover env rest false

/-! ### Per-horizon pipeline driver (src/fetch_data.py `main`, lines 463-605) -/

/-- Variables needed for point traces (src line 31). -/
def VARS_TRACES : List String := ["T", "U", "V", "P", "QV"]

/-- Variables needed for wind maps (src line 33). -/
def VARS_MAPS : List String := ["U", "V", "HHL"]

/-- `vars_to_fetch` (src lines 465-468): the union of the trace and map
variables without the static `HHL`.  Python materialises the union through
`list(set(...))`, whose order is unspecified; it is fixed here to
first-occurrence order — no claim depends on the order, only on the set. -/
def vars_to_fetch : List String := ["T", "U", "V", "P", "QV"]

/-- Environment of one pipeline execution for the selected run. -/
structure PipelineEnv where
  /-- The run tag `YYYYMMDD_HHMM`. -/
  time_tag : String
  /-- Ordered location names from `locations.json`. -/
  locations : List String
  /-- `ogd_api.get_asset_urls` for (variable, horizon). -/
  asset_urls : String → Nat → List String
  /-- Whether decoding the downloaded asset yielded a usable data variable. -/
  decoded : String → Nat → Bool
  /-- Whether the static HHL field was loaded (src lines 437, 491-492). -/
  hhl_loaded : Bool
  /-- Whether at least one wind level interpolated successfully at this
  horizon, i.e. `out_ds_dict` is nonempty (src lines 310-347). -/
  some_level_ok : Nat → Bool

/-- Observable effects of processing one horizon: artifact files written,
`get_asset_urls` catalog calls issued, and provider assets downloaded. -/
structure HorizonLog where
  writes : Cache
  urlCalls : List String
  downloads : List String
deriving DecidableEq

/-- The trace files `process_traces` writes: one per location whose
artifact does not already exist (src lines 209-238, skip at line 215). -/
def trace_writes (env : PipelineEnv) (cache : Cache) (h : Nat) : Cache :=
  (env.locations.filter (fun loc =>
    !cache.contains (tracePath env.time_tag loc h))).map
    (fun loc => tracePath env.time_tag loc h)

/-- The wind-map file `process_wind_maps` writes, honouring its own
existence check (src line 245). -/
def map_writes (env : PipelineEnv) (cache : Cache) (h : Nat) : Cache :=
  if cache.contains (mapPath env.time_tag h) then [] else [mapPath env.time_tag h]

/-- One iteration of the horizon loop (src lines 470-605).  The driver
first checks, per horizon, whether the last location's trace artifact and
the wind-map artifact exist (lines 471-480); when neither is needed the
horizon is skipped before any provider interaction (lines 482-483).
Otherwise every variable of `vars_to_fetch` gets a catalog call, assets
with a nonempty URL list are downloaded (lines 494-513), traces are
processed when needed and some trace variable is present (lines 584-590),
and the wind map is written when needed, `U`, `V` and `HHL` are present,
and some level succeeded (lines 592-601, 245, 347-353). -/
def run_horizon (env : PipelineEnv) (cache : Cache) (h : Nat) :
    Cache × HorizonLog :=
  let traces_needed := !cache.contains (tracePath env.time_tag (env.locations.getLastD "") h)
  let maps_needed := !cache.contains (mapPath env.time_tag h)
  if !traces_needed && !maps_needed then (cache, ⟨[], [], []⟩)
  else
    let downloads := vars_to_fetch.filter (fun v => !(env.asset_urls v h).isEmpty)
    let fetched := vars_to_fetch.filter (fun v => !(env.asset_urls v h).isEmpty && env.decoded v h)
    let domain := (if env.hhl_loaded then ["HHL"] else []) ++ fetched
    let twrites :=
      if traces_needed && VARS_TRACES.any (fun v => domain.contains v) then
        trace_writes env cache h
      else []
    let mwrites :=
      if maps_needed && domain.contains "HHL" && domain.contains "U" &&
          domain.contains "V" && env.some_level_ok h then
        map_writes env cache h
      else []
    (cache ++ twrites ++ mwrites, ⟨twrites ++ mwrites, vars_to_fetch, downloads⟩)

/-- The full horizon loop: thread the cache through `run_horizon` and
accumulate the logs. -/
def run_pipeline (env : PipelineEnv) (cache : Cache) :
    List Nat → Cache × HorizonLog
  | [] => (cache, ⟨[], [], []⟩)
  | h :: rest =>
    let step := run_horizon env cache h
    let restRun := run_pipeline env step.1 rest
    (restRun.1, ⟨step.2.writes ++ restRun.2.writes,
      step.2.urlCalls ++ restRun.2.urlCalls,
      step.2.downloads ++ restRun.2.downloads⟩)

/-! ### Wind-map outputs (src/fetch_data.py `process_wind_maps`, lines 240-353) -/

/-- A configured target level (src lines 43-50). -/
structure Level where
  name : String
  h : Nat
  type : String
deriving DecidableEq

/-- `WIND_LEVELS` (src lines 43-50). -/
def WIND_LEVELS : List Level :=
  [⟨"10m_AGL", 10, "AGL"⟩, ⟨"800m_AGL", 800, "AGL"⟩,
   ⟨"1500m_AMSL", 1500, "AMSL"⟩, ⟨"2000m_AMSL", 2000, "AMSL"⟩,
   ⟨"3000m_AMSL", 3000, "AMSL"⟩, ⟨"4000m_AMSL", 4000, "AMSL"⟩]

/-- A persisted wind-map artifact: its path and the names of the data
variables stored in it. -/
structure WindMapArtifact where
  path : List String
  varNames : List String
deriving DecidableEq

/-- The artifact `process_wind_maps` persists: a single file
`cache_wind/<time_tag>/wind_maps_H<h:02d>.nc` (src lines 242-244) holding,
for every level whose interpolation succeeded (`ok`), the two data
variables `u_<name>` and `v_<name>` (src lines 337-341, 349-353).  Levels
that fail are skipped (lines 343-345). -/
def wind_map_artifact (levels : List Level) (ok : String → Bool)
    (time_tag : String) (h : Nat) : WindMapArtifact :=
  ⟨mapPath time_tag h,
   levels.flatMap (fun lvl =>
     if ok lvl.name then ["u_" ++ lvl.name, "v_" ++ lvl.name] else [])⟩

/-- Modelled from the spec: the claimed per-frame map artifact path
`<cacheRoot>/<runTag>/Wind_<frame>_<levelName>_<runTag>_H<horizon2digits>.<ext>`
(spec §6 and §8; also asserted by `src/tests/test_naming.py` lines 57-62).
No function in `src/fetch_data.py` builds this path. -/
def wind_map_spec_path (cacheRoot time_tag frame levelName : String)
    (h : Nat) : List String :=
  [cacheRoot, time_tag,
   "Wind_" ++ frame ++ "_" ++ levelName ++ "_" ++ time_tag ++ "_H" ++ pad2 h ++ ".nc"]

/-! ### Vertical heights (src/fetch_data.py `process_wind_maps`, lines 265-322)

A field is a list of vertical rows, each row a list of per-cell values,
matching the `(generalVerticalLayer, ncells)` layout the code assumes
after its axis normalisation (src lines 295-308). -/

/-- `z_f` (src line 272): elementwise mean of the interface-height array
sliced `[0:-1]` and `[1:]` along the vertical axis. -/
def z_f (hhl : List (List ℚ)) : List (List ℚ) :=
  List.zipWith (fun r1 r2 => List.zipWith (fun a b => (a + b) / 2) r1 r2)
    hhl.dropLast (hhl.drop 1)

/-- `h_surf` (src line 274): the last vertical entry of the interface
heights, assumed to be the surface. -/
def h_surf (hhl : List (List ℚ)) : List ℚ := hhl.getLastD []

/-- AGL interpolation heights (src lines 316-320): surface height
subtracted from every full-level row, per cell. -/
def field_z_AGL (hhl : List (List ℚ)) : List (List ℚ) :=
  (z_f hhl).map (fun row => List.zipWith (fun a b => a - b) row (h_surf hhl))

/-- AMSL interpolation heights (src lines 321-322): the full-level heights
unchanged. -/
def field_z_AMSL (hhl : List (List ℚ)) : List (List ℚ) := z_f hhl

/-- Total double indexing into a row-list field (out-of-range reads 0). -/
def ix2 (xss : List (List ℚ)) (i j : Nat) : ℚ := (xss.getD i []).getD j 0

/-! ### Grid locator (src/fetch_data.py `process_traces`, line 207) -/

/-- `np.argmin`: the position of the first occurrence of the minimum in
the (row-major flattened) array.  The numerics library is an external
collaborator (spec §1); this is its documented semantics. -/
def np_argmin (l : List ℚ) : Nat :=
  match l.min? with
  | none => 0
  | some m => l.findIdx (fun x => decide (x ≤ m))

/-- The squared-degree distances `(lats-lat)**2 + (lons-lon)**2` of
src line 207, over the flattened coordinate arrays. -/
def sq_dists (lats lons : List ℚ) (plat plon : ℚ) : List ℚ :=
  List.zipWith (fun la lo => (la - plat) ^ 2 + (lo - plon) ^ 2) lats lons

/-- A resolved cell index: either a flat position or a (row, column) pair. -/
inductive CellIndex where
  | flat : Nat → CellIndex
  | pair : Nat → Nat → CellIndex
deriving DecidableEq

/-- A coordinate grid: its numpy shape and the row-major flattened
latitude/longitude arrays. -/
structure Grid where
  shape : List Nat
  lat : List ℚ
  lon : List ℚ

/-- The locator as the code computes it (src line 207):
`int(np.argmin((lats-c.lat)**2 + (lons-c.lon)**2))` — always a single flat
integer, whatever the shape of the coordinate arrays. -/
def resolve_code (g : Grid) (plat plon : ℚ) : CellIndex :=
  .flat (np_argmin (sq_dists g.lat g.lon plat plon))

/-- Modelled from the spec (§4.1): for a 2-D coordinate array the cell
index is the (row, column) pair obtained by unraveling the flat argmin
position according to the array's shape; for a 1-D array it is the flat
position itself. -/
def resolve_spec (g : Grid) (plat plon : ℚ) : CellIndex :=
  let k := np_argmin (sq_dists g.lat g.lon plat plon)
  match g.shape with
  | [_, c] => .pair (k / c) (k % c)
  | _ => .flat k

/-! ### Coordinate-name resolution (src/fetch_data.py lines 200-207, 584-605) -/

/-- The coordinate lookup of `process_traces` (src lines 203-205):
`lat_n = 'latitude' if 'latitude' in sample.coords else 'lat'` (same for
longitude), followed by `sample[lat_n]` and `sample[lon_n]`, each of which
raises `KeyError` when the chosen name is absent.  Python evaluates the
latitude lookup first. -/
def coord_names (coords : List String) : Except String (String × String) :=
  let lat_n := if coords.contains "latitude" then "latitude" else "lat"
  let lon_n := if coords.contains "longitude" then "longitude" else "lon"
  if coords.contains lat_n then
    if coords.contains lon_n then .ok (lat_n, lon_n)
    else .error ("KeyError: " ++ lon_n)
  else .error ("KeyError: " ++ lat_n)

/-- The horizon loop as it treats a `process_traces` coordinate failure
(src lines 470-605 in the scenario where every horizon needs both trace
and map artifacts and the trace variables were fetched): `main` wraps no
try/except around `process_traces` (line 590), so a raised lookup error
propagates out of the loop — the returned value is the list of horizons
fully processed (traces and then maps, lines 584-603) before the abort. -/
def run_horizons_traces (coords : List String) :
    List Nat → Except String (List Nat)
  | [] => .ok []
  | h :: rest =>
    match coord_names coords with
    | .error e => .error e
    | .ok _ =>
      match run_horizons_traces coords rest with
      | .error e => .error e
      | .ok hs => .ok (h :: hs)

/-! ### Retention cleanup (src/fetch_data.py `cleanup_old_runs`, lines 610-664) -/

/-- Proleptic-Gregorian leap-year rule (as used by `datetime`). -/
def isLeap (y : Nat) : Bool :=
  (y % 4 == 0 && y % 100 != 0) || y % 400 == 0

/-- Length of month `m` (1-12) in year `y`. -/
def month_length (y m : Nat) : Nat :=
  if m = 2 then (if isLeap y then 29 else 28)
  else if m = 4 ∨ m = 6 ∨ m = 9 ∨ m = 11 then 30
  else 31

/-- Days from the Unix epoch to the civil date `y-m-d`
(Howard Hinnant's `days_from_civil`, on the proleptic Gregorian
calendar). -/
def days_from_civil (y m d : Int) : Int :=
  let y' := if m ≤ 2 then y - 1 else y
  let era := (if 0 ≤ y' then y' else y' - 399) / 400
  let yoe := y' - era * 400
  let mp := (m + 9) % 12
  let doy := (153 * mp + 2) / 5 + d - 1
  let doe := yoe * 365 + yoe / 4 - yoe / 100 + doy
  era * 146097 + doe - 719468

/-- A two-character regex branch `x[a-b]` / `[a-b]\d`-style: first
character in `[lo1, hi1]`, second in `[lo2, hi2]`; yields the two-digit
value and the remaining input. -/
def alt_range2 (lo1 hi1 lo2 hi2 : Char) : List Char → Option (Nat × List Char)
  | a :: b :: rest =>
    if lo1 ≤ a ∧ a ≤ hi1 ∧ lo2 ≤ b ∧ b ≤ hi2 then
      some (10 * (a.toNat - 48) + (b.toNat - 48), rest)
    else none
  | _ => none

/-- A one-character regex branch `[lo-hi]`: yields the digit value and the
remaining input. -/
def alt_range1 (lo hi : Char) : List Char → Option (Nat × List Char)
  | a :: rest => if lo ≤ a ∧ a ≤ hi then some (a.toNat - 48, rest) else none
  | _ => none

/-- Regex alternation with backtracking: try the branches in order; a
branch is kept only if the continuation `k` succeeds on its remainder,
otherwise matching backtracks to the next branch — exactly CPython's
leftmost backtracking semantics. -/
def tryAlts {β : Type} (k : Nat → List Char → Option β) :
    List (List Char → Option (Nat × List Char)) → List Char → Option β
  | [], _ => none
  | a :: as, s =>
    match a s with
    | some (v, rest) =>
      match k v rest with
      | some r => some r
      | none => tryAlts k as s
    | none => tryAlts k as s

/-- CPython `_strptime` branch list for `%m`: `1[0-2]|0[1-9]|[1-9]`. -/
def month_alts : List (List Char → Option (Nat × List Char)) :=
  [alt_range2 '1' '1' '0' '2', alt_range2 '0' '0' '1' '9', alt_range1 '1' '9']

/-- CPython `_strptime` branch list for `%d`: `3[01]|[12]\d|0[1-9]|[1-9]`. -/
def day_alts : List (List Char → Option (Nat × List Char)) :=
  [alt_range2 '3' '3' '0' '1', alt_range2 '1' '2' '0' '9',
   alt_range2 '0' '0' '1' '9', alt_range1 '1' '9']

/-- CPython `_strptime` branch list for `%H`: `2[0-3]|[0-1]\d|\d`. -/
def hour_alts : List (List Char → Option (Nat × List Char)) :=
  [alt_range2 '2' '2' '0' '3', alt_range2 '0' '1' '0' '9', alt_range1 '0' '9']

/-- CPython `_strptime` branch list for `%M`: `[0-5]\d|\d`. -/
def minute_alts : List (List Char → Option (Nat × List Char)) :=
  [alt_range2 '0' '5' '0' '9', alt_range1 '0' '9']

/-- The first match of the CPython `_strptime` regex for `%Y%m%d_%H%M`
against a prefix of the input, in the engine's branch order: `%Y` is
exactly four digits, then `%m`, `%d`, a literal underscore, `%H` and `%M`
with the branch lists above and full backtracking; on success it returns
the five field values and the *unconsumed* remainder of the input (the
pattern is not end-anchored). -/
def strpMatch (s : List Char) : Option ((Nat × Nat × Nat × Nat × Nat) × List Char) :=
  match s with
  | y1 :: y2 :: y3 :: y4 :: rest =>
    if y1.isDigit ∧ y2.isDigit ∧ y3.isDigit ∧ y4.isDigit then
      let y := 1000 * (y1.toNat - 48) + 100 * (y2.toNat - 48) +
        10 * (y3.toNat - 48) + (y4.toNat - 48)
      tryAlts (fun mo rest1 =>
        tryAlts (fun da rest2 =>
          match rest2 with
          | '_' :: rest3 =>
            tryAlts (fun ho rest4 =>
              tryAlts (fun mi rest5 =>
                some ((y, mo, da, ho, mi), rest5)) minute_alts rest4)
              hour_alts rest3
          | _ => none) day_alts rest1) month_alts rest
    else none
  | _ => none

/-- `datetime.strptime(item, "%Y%m%d_%H%M")` mapped to seconds since the
Unix epoch, with CPython's semantics: the `_strptime` regex finds its
first (leftmost, branch-ordered, backtracking) match — so variable-width
month/day/hour/minute fields such as `"2024011_1200"` or `"20240101_123"`
are accepted — then a nonempty unconsumed remainder raises
`ValueError: unconverted data remains`, and `datetime` construction
validates year ≥ 1 and the day against the month's length (the regex
itself already bounds month ≤ 12, day ≤ 31, hour ≤ 23, minute ≤ 59).
`\d` is modelled as an ASCII digit; CPython's default Unicode digit
classes are out of scope for this repository's cache names. -/
def parse_time_tag (s : String) : Option Int :=
  match strpMatch s.data with
  | none => none
  | some ((y, mo, da, ho, mi), rest) =>
    if rest = [] ∧ 1 ≤ y ∧ da ≤ month_length y mo then
      some (86400 * days_from_civil y mo da + 3600 * ho + 60 * mi)
    else none

/-- Whitespace stripped by Python `int(str)` (ASCII fragment). -/
def isPySpace (c : Char) : Bool :=
  c == ' ' || c == '\t' || c == '\n' || c == '\r' || c == '\x0b' || c == '\x0c'

/-- Digit run of a Python integer literal: after a digit, each further
digit may be preceded by a single underscore. -/
def py_int_digits : List Char → Nat → Option Nat
  | [], acc => some acc
  | '_' :: c :: rest, acc =>
    if c.isDigit then py_int_digits rest (acc * 10 + (c.toNat - 48)) else none
  | c :: rest, acc =>
    if c.isDigit then py_int_digits rest (acc * 10 + (c.toNat - 48)) else none

/-- Unsigned part of `int(str)`: at least one digit, underscores only
between digits. -/
def py_int_core : List Char → Option Nat
  | [] => none
  | c :: rest => if c.isDigit then py_int_digits rest (c.toNat - 48) else none

/-- Python `int(str)`: strip whitespace, optional sign, digits with
single underscores between them; anything else raises `ValueError`
(modelled as `none`). -/
def py_int (s : String) : Option Int :=
  let t := ((s.data.dropWhile isPySpace).reverse.dropWhile isPySpace).reverse
  match t with
  | '+' :: rest => (py_int_core rest).map Int.ofNat
  | '-' :: rest => (py_int_core rest).map (fun n => -(Int.ofNat n))
  | rest => (py_int_core rest).map Int.ofNat

/-- A top-level item of a cache directory: a subdirectory, or a loose file
with its modification time (seconds since the epoch). -/
inductive CacheItem where
  | dir : String → CacheItem
  | file : String → Int → CacheItem
deriving DecidableEq

/-- The per-directory deletion scan (src lines 636-664): a subdirectory is
removed when its name parses as a `YYYYMMDD_HHMM` timestamp before the
cutoff (`ValueError` skips it, lines 651-653); a loose file is removed when
its modification time is before the cutoff (lines 656-662). -/
def cleanup_scan (cutoff : Int) : List CacheItem → List CacheItem
  | [] => []
  | .dir name :: rest =>
    match parse_time_tag name with
    | some dt =>
      if dt < cutoff then .dir name :: cleanup_scan cutoff rest
      else cleanup_scan cutoff rest
    | none => cleanup_scan cutoff rest
  | .file name mtime :: rest =>
    if mtime < cutoff then .file name mtime :: cleanup_scan cutoff rest
    else cleanup_scan cutoff rest

/-- Result of `cleanup_old_runs`: what was deleted, and whether the
invalid-retention warning was printed. -/
structure CleanupResult where
  deleted : List CacheItem
  warned : Bool
deriving DecidableEq

/-- `cleanup_old_runs` (src lines 610-664).  `retention_env` is
`os.environ.get("RETENTION_DAYS")`; `now` is the current UTC instant in
epoch seconds; `roots` lists the top-level items of each existing cache
root (`dirs_to_check`, line 631).  An unset or empty variable returns
before any deletion (`if not days_str`, lines 617-620); a set value that
`int()` rejects prints the warning and returns (lines 622-625); otherwise
the cutoff is `now` minus the retention days and both roots are scanned. -/
def cleanup_old_runs : Option String → Int → List (List CacheItem) → CleanupResult
  | none, _, _ => ⟨[], false⟩
  | some s, now, roots =>
    if s = "" then ⟨[], false⟩
    else
      match py_int s with
      | none => ⟨[], true⟩
      | some d => ⟨(roots.map (cleanup_scan (now - d * 86400))).flatten, false⟩

/-- Modelled from the spec/claim (C9): the retention deletion predicate —
a subdirectory whose name parses as a `YYYYMMDD_HHMM` timestamp older than
the cutoff, or a loose file whose modification time is older. -/
def retention_deletes (cutoff : Int) : CacheItem → Bool
  | .dir name =>
    match parse_time_tag name with
    | some dt => decide (dt < cutoff)
    | none => false
  | .file _ mtime => decide (mtime < cutoff)

/-! ### Auxiliary definitions for the theorems -/

/-- Inverse of `pad2` on two-character strings: reads the two decimal
digits back. -/
def unpad2 (s : String) : Nat :=
  match s.data with
  | [a, b] => 10 * (a.toNat - 48) + (b.toNat - 48)
  | _ => 0

/-- A discovery environment in which every candidate probes available:
used to exercise the discovery theorems at a concrete input. -/
def discEnvW : DiscoveryEnv :=
  ⟨fun _ => false, fun _ => .urls ["asset0"], fun _ => .urls ["asset33"]⟩

/-- A discovery environment in which every candidate is fully cached
locally. -/
def discEnvC : DiscoveryEnv :=
  ⟨fun _ => true, fun _ => .urls [], fun _ => .urls []⟩

/-- A concrete pipeline environment for exercising the driver theorems. -/
def pipeEnvW : PipelineEnv :=
  ⟨"20240101_0000", ["Alpha"], fun _ _ => ["url"], fun _ _ => true, true, fun _ => true⟩

/-- A cache holding all artifacts of `pipeEnvW` for horizon 0. -/
def pipeCacheW : Cache :=
  [tracePath "20240101_0000" "Alpha" 0, mapPath "20240101_0000" 0]

/-! ## Theorems -/

/-- The deletion scan of one cache root is exactly the filter by the
retention predicate. -/
theorem cleanup_scan_eq_filter (cutoff : Int) (items : List CacheItem) :
    cleanup_scan cutoff items = items.filter (retention_deletes cutoff) := by
  induction items with
  | nil => rfl
  | cons it rest ih =>
    cases it with
    | dir name =>
      cases h : parse_time_tag name with
      | none => simp [cleanup_scan, List.filter_cons, retention_deletes, h, ih]
      | some dt =>
        by_cases hdt : dt < cutoff <;>
          simp [cleanup_scan, List.filter_cons, retention_deletes, h, hdt, ih]
    | file name mtime =>
      by_cases hm : mtime < cutoff <;>
        simp [cleanup_scan, List.filter_cons, retention_deletes, hm, ih]

/-- C9: when `RETENTION_DAYS` parses as an integer `d`, cleanup deletes
exactly the subdirectories whose names parse as `YYYYMMDD_HHMM` timestamps
older than `now` minus `d` days together with the loose files whose
modification time is older, leaving everything else untouched; when the
variable is unset, cleanup deletes nothing. -/
theorem cleanup_retention_frame :
    (∀ (s : String) (d now : Int) (roots : List (List CacheItem)),
      py_int s = some d →
      cleanup_old_runs (some s) now roots =
        ⟨(roots.map (List.filter (retention_deletes (now - d * 86400)))).flatten, false⟩) ∧
    (∀ (now : Int) (roots : List (List CacheItem)),
      cleanup_old_runs none now roots = ⟨[], false⟩) := by
  constructor
  · intro s d now roots hparse
    have hs : ¬ s = "" := by
      intro h
      subst h
      exact Option.noConfusion (hparse.symm.trans rfl)
    have hscan : cleanup_scan (now - d * 86400) =
        List.filter (retention_deletes (now - d * 86400)) :=
      funext (cleanup_scan_eq_filter _)
    calc cleanup_old_runs (some s) now roots
        = ⟨(roots.map (cleanup_scan (now - d * 86400))).flatten, false⟩ := by
          simp only [cleanup_old_runs]
          rw [if_neg hs, hparse]
      _ = ⟨(roots.map (List.filter (retention_deletes (now - d * 86400)))).flatten,
            false⟩ := by
          rw [hscan]
  · intro now roots
    rfl

/-- Witness for `cleanup_retention_frame` at a concrete cache state. -/
theorem cleanup_retention_frame_witness :
    cleanup_old_runs (some "2") (86400 * 10)
        [[CacheItem.dir "19700105_0000", CacheItem.dir "19700109_0000",
          CacheItem.dir "notadate", CacheItem.file "x.log" 0]] =
      ⟨([[CacheItem.dir "19700105_0000", CacheItem.dir "19700109_0000",
          CacheItem.dir "notadate", CacheItem.file "x.log" 0]].map
          (List.filter (retention_deletes (86400 * 10 - 2 * 86400)))).flatten, false⟩ :=
  cleanup_retention_frame.1 "2" 2 (86400 * 10) _ (by decide)

/-- C10 counterexample: `RETENTION_DAYS=""` is set and does not parse as
an integer, and cleanup deletes nothing — but it takes the
`if not days_str` return (src line 617-620) and prints no warning,
contrary to the claim that every such value produces a warning. -/
theorem cleanup_empty_retention_no_warning :
    py_int "" = none ∧
    cleanup_old_runs (some "") 0 [[CacheItem.dir "19600101_0000"]] =
      ⟨[], false⟩ := by
  exact ⟨rfl, rfl⟩

/-- C10 (amended): any set `RETENTION_DAYS` value that `int()` rejects
deletes nothing; the invalid-value warning is printed exactly when the
value is nonempty (the empty string returns silently). -/
theorem cleanup_invalid_retention_safe :
    ∀ (s : String) (now : Int) (roots : List (List CacheItem)),
      py_int s = none →
      (cleanup_old_runs (some s) now roots).deleted = [] ∧
      (cleanup_old_runs (some s) now roots).warned = !(s == "") := by
  intro s now roots h
  by_cases hs : s = ""
  · subst hs
    exact ⟨rfl, rfl⟩
  · have hbeq : (s == "") = false := by
      simp [hs]
    simp only [cleanup_old_runs]
    rw [if_neg hs, h, hbeq]
    exact ⟨rfl, rfl⟩

/-- Witness for `cleanup_invalid_retention_safe`. -/
theorem cleanup_invalid_retention_safe_witness :
    (cleanup_old_runs (some "abc") 0 [[CacheItem.dir "19600101_0000"]]).deleted = [] ∧
    (cleanup_old_runs (some "abc") 0 [[CacheItem.dir "19600101_0000"]]).warned =
      !("abc" == "") :=
  cleanup_invalid_retention_safe "abc" 0 _ (by decide)

/-- C2: a candidate is declared selected only if both availability probes
returned a nonempty URL list (soundness, first conjunct); a not-locally-
cached candidate whose two probes return nonempty lists is selected on the
spot, regardless of the remaining older candidates (short-circuit, second
conjunct); and a candidate for which either probe returns an empty list is
passed over in favour of the rest of the candidate list (third
conjunct). -/
theorem discovery_selection_condition :
    (∀ (env : DiscoveryEnv) (cs : List Nat) (first : Bool) (c : Nat),
      discover env cs first = .selected c →
      ∃ us ue, env.probeStart c = .urls us ∧ us ≠ [] ∧
        env.probeEnd c = .urls ue ∧ ue ≠ []) ∧
    (∀ (env : DiscoveryEnv) (c : Nat) (rest : List Nat) (first : Bool)
        (us ue : List String),
      env.complete c = false → env.probeStart c = .urls us → us ≠ [] →
      env.probeEnd c = .urls ue → ue ≠ [] →
      discover env (c :: rest) first = .selected c) ∧
    (∀ (env : DiscoveryEnv) (c : Nat) (rest : List Nat) (first : Bool)
        (us ue : List String),
      env.complete c = false → env.probeStart c = .urls us →
      env.probeEnd c = .urls ue → (us = [] ∨ ue = []) →
      discover env (c :: rest) first = discover env rest false) := by
  refine ⟨?_, ?_, ?_⟩
  · intro env cs
    induction cs with
    | nil =>
      intro first c h
      exact Outcome.noConfusion h
    | cons a rest ih =>
      intro first c h
      simp only [discover] at h
      by_cases hc : env.complete a
      · rw [if_pos hc] at h
        cases first with
        | true => exact Outcome.noConfusion h
        | false => exact ih false c h
      · rw [if_neg hc] at h
        cases hps : env.probeStart a with
        | raised =>
          rw [hps] at h
          exact ih false c h
        | urls us =>
          rw [hps] at h
          cases hpe : env.probeEnd a with
          | raised =>
            rw [hpe] at h
            exact ih false c h
          | urls ue =>
            rw [hpe] at h
            have h2 : (if us ≠ [] ∧ ue ≠ [] then Outcome.selected a
                else discover env rest false) = Outcome.selected c := h
            by_cases hcond : us ≠ [] ∧ ue ≠ []
            · rw [if_pos hcond] at h2
              cases h2
              exact ⟨us, ue, hps, hcond.1, hpe, hcond.2⟩
            · rw [if_neg hcond] at h2
              exact ih false c h2
  · intro env c rest first us ue hc hps hus hpe hue
    simp only [discover, hc, hps, hpe]
    exact if_pos (And.intro hus hue)
  · intro env c rest first us ue hc hps hpe hor
    have hcond : ¬ (us ≠ [] ∧ ue ≠ []) := by
      rcases hor with h1 | h1 <;> simp [h1]
    simp only [discover, hc, hps, hpe]
    exact if_neg hcond

/-- Witness for `discovery_selection_condition`: in `discEnvW` the newest
candidate is selected immediately. -/
theorem discovery_selection_condition_witness :
    discover discEnvW [5, 4] true = .selected 5 :=
  discovery_selection_condition.2.1 discEnvW 5 [4] true ["asset0"] ["asset33"]
    rfl rfl (by decide) rfl (by decide)

/-- C4 counterexample: with locations `["A", "B"]` and a cache holding
only location `B`'s last-horizon trace artifact (plus the map artifact),
`is_run_complete_locally` reports the run as fully processed although the
trace artifact of location `A` does not exist — the check looks only at
the last configured location, not at every location. -/
theorem run_complete_ignores_other_locations :
    is_run_complete_locally
        [tracePath "20240101_0000" "B" 33, mapPath "20240101_0000" 33]
        "20240101_0000" ["A", "B"] 33 = true ∧
    ([tracePath "20240101_0000" "B" 33, mapPath "20240101_0000" 33] : Cache).contains
        (tracePath "20240101_0000" "A" 33) = false := by
  decide

/-- C4 (amended): the local completeness check depends only on the *last*
configured location (first conjunct: two location lists with the same last
element give the same verdict); when the newest candidate passes the
check, discovery terminates immediately with nothing-new (second
conjunct); an older candidate passing it is skipped silently (third
conjunct). -/
theorem run_complete_last_location_only :
    (∀ (cache : Cache) (tag : String) (locs1 locs2 : List String) (max_h : Nat),
      locs1.getLastD "" = locs2.getLastD "" →
      is_run_complete_locally cache tag locs1 max_h =
        is_run_complete_locally cache tag locs2 max_h) ∧
    (∀ (cache : Cache) (tags : Nat → String) (maxhs : Nat → Nat)
        (locs : List String) (pS pE : Nat → Probe) (c : Nat) (rest : List Nat),
      is_run_complete_locally cache (tags c) locs (maxhs c) = true →
      discover ⟨fun x => is_run_complete_locally cache (tags x) locs (maxhs x), pS, pE⟩
        (c :: rest) true = .nothingNew) ∧
    (∀ (cache : Cache) (tags : Nat → String) (maxhs : Nat → Nat)
        (locs : List String) (pS pE : Nat → Probe) (c : Nat) (rest : List Nat),
      is_run_complete_locally cache (tags c) locs (maxhs c) = true →
      discover ⟨fun x => is_run_complete_locally cache (tags x) locs (maxhs x), pS, pE⟩
        (c :: rest) false =
      discover ⟨fun x => is_run_complete_locally cache (tags x) locs (maxhs x), pS, pE⟩
        rest false) := by
  refine ⟨?_, ?_, ?_⟩
  · intro cache tag locs1 locs2 max_h hlast
    unfold is_run_complete_locally
    rw [hlast]
  · intro cache tags maxhs locs pS pE c rest hcomp
    simp [discover, hcomp]
  · intro cache tags maxhs locs pS pE c rest hcomp
    simp [discover, hcomp]

/-- Witness for `run_complete_last_location_only`: a fully cached newest
candidate ends discovery with nothing-new. -/
theorem run_complete_last_location_only_witness :
    discover ⟨fun x => is_run_complete_locally pipeCacheW
        ((fun _ => "20240101_0000") x) ["Alpha"] ((fun _ => 0) x),
        (fun _ => .urls []), (fun _ => .urls [])⟩ [7, 6] true = .nothingNew :=
  run_complete_last_location_only.2.1 pipeCacheW (fun _ => "20240101_0000")
    (fun _ => 0) ["Alpha"] (fun _ => .urls []) (fun _ => .urls []) 7 [6] (by decide)

/-- C3: evaluating `process_wind_maps`'s persistence at the input of
`src/tests/test_naming.py` (levels `10m_AGL`/AGL and `2000m_AMSL`/AMSL,
run tag `20990101_1200`, horizon 3, all interpolations succeeding): the
code produces ONE combined artifact `cache_wind/20990101_1200/wind_maps_H03.nc`
holding the AGL and the AMSL outputs together, and that path equals
neither of the per-frame paths
`Wind_<frame>_<levelName>_<runTag>_H03.nc` asserted by the claim, the
spec (§6, §8) and the repository's own tests. -/
theorem wind_map_single_combined_artifact :
    wind_map_artifact [⟨"10m_AGL", 10, "AGL"⟩, ⟨"2000m_AMSL", 2000, "AMSL"⟩]
        (fun _ => true) "20990101_1200" 3 =
      ⟨["cache_wind", "20990101_1200", "wind_maps_H03.nc"],
       ["u_10m_AGL", "v_10m_AGL", "u_2000m_AMSL", "v_2000m_AMSL"]⟩ ∧
    (wind_map_artifact [⟨"10m_AGL", 10, "AGL"⟩, ⟨"2000m_AMSL", 2000, "AMSL"⟩]
        (fun _ => true) "20990101_1200" 3).path ≠
      wind_map_spec_path "cache_wind" "20990101_1200" "AGL" "10m_AGL" 3 ∧
    (wind_map_artifact [⟨"10m_AGL", 10, "AGL"⟩, ⟨"2000m_AMSL", 2000, "AMSL"⟩]
        (fun _ => true) "20990101_1200" 3).path ≠
      wind_map_spec_path "cache_wind" "20990101_1200" "AMSL" "2000m_AMSL" 3 := by
  refine ⟨rfl, ?_, ?_⟩ <;> decide

/-- C7 counterexample: a sample field whose coordinate set is just
`["values"]` (no latitude/lat, no longitude/lon) makes the coordinate
lookup raise `KeyError: lat`, and the horizon loop aborts with that
error — horizons 0, 1, 2 are all left unprocessed (map processing
included), contradicting the claim that the failure is contained and the
pipeline continues. -/
theorem missing_coords_halt :
    coord_names ["values"] = .error "KeyError: lat" ∧
    run_horizons_traces ["values"] [0, 1, 2] = .error "KeyError: lat" :=
  ⟨rfl, rfl⟩

/-- C7 (amended): for a sample field carrying neither a `latitude/lat` nor
a `longitude/lon` coordinate, `process_traces`' lookup fails with
`KeyError: lat` (there is no `MissingCoordinates` error class), and since
`main` wraps no handler around `process_traces` the error propagates: the
horizon loop aborts with the error, so map processing for that horizon
and all subsequent horizons does not run. -/
theorem missing_coords_abort :
    ∀ (coords : List String) (h : Nat) (rest : List Nat),
      coords.contains "latitude" = false → coords.contains "lat" = false →
      coord_names coords = .error "KeyError: lat" ∧
      run_horizons_traces coords (h :: rest) = .error "KeyError: lat" := by
  intro coords h rest h1 h2
  have c1 : ¬ (coords.contains "latitude" = true) := by rw [h1]; simp
  have c2 : ¬ (coords.contains "lat" = true) := by rw [h2]; simp
  have hc : coord_names coords = .error "KeyError: lat" := by
    simp only [coord_names]
    rw [if_neg c1, if_neg c2]
    congr 1
  refine ⟨hc, ?_⟩
  simp [run_horizons_traces, hc]

/-- Witness for `missing_coords_abort`. -/
theorem missing_coords_abort_witness :
    coord_names ["values", "time"] = .error "KeyError: lat" ∧
    run_horizons_traces ["values", "time"] [0, 1] = .error "KeyError: lat" :=
  missing_coords_abort ["values", "time"] 0 [1] (by decide) (by decide)

/-- C8 counterexample: `sanitize_name` is not injective — the distinct
location names `"A.B"` and `"AB"` sanitize alike, so their trace
artifacts for the same run and horizon collide on one path. -/
theorem sanitize_collision :
    sanitize_name "A.B" = sanitize_name "AB" ∧ "A.B" ≠ "AB" ∧
    tracePath "20240101_0000" "A.B" 0 = tracePath "20240101_0000" "AB" 0 := by
  decide

/-- `unpad2` reads the two-digit padding back, for horizons below 100. -/
theorem unpad2_pad2 : ∀ a : Fin 100, unpad2 (pad2 a.val) = a.val := by decide

/-- The two-digit padding of horizons below 100 has exactly two
characters. -/
theorem pad2_data_length : ∀ a : Fin 100, (pad2 a.val).data.length = 2 := by decide

/-- `pad2` is injective below 100. -/
theorem pad2_inj {h h' : Nat} (hh : h < 100) (hh' : h' < 100)
    (he : pad2 h = pad2 h') : h = h' := by
  have e1 := unpad2_pad2 ⟨h, hh⟩
  have e2 := unpad2_pad2 ⟨h', hh'⟩
  simp only at e1 e2
  rw [← e1, ← e2, he]

/-- Injectivity of the `<p>H<h:02d><s>` file-name scheme below 100. -/
theorem affix_pad2_inj (p s : String) {h h' : Nat} (hh : h < 100)
    (hh' : h' < 100) (he : p ++ pad2 h ++ s = p ++ pad2 h' ++ s) : h = h' := by
  have hdata : p.data ++ ((pad2 h).data ++ s.data) =
      p.data ++ ((pad2 h').data ++ s.data) := by
    have := congrArg String.data he
    simpa [String.data_append] using this
  have htail := (List.append_inj hdata rfl).2
  have hmid := (List.append_inj' htail (by rfl)).1
  have hlen : (pad2 h).data.length = (pad2 h').data.length := by
    rw [pad2_data_length ⟨h, hh⟩, pad2_data_length ⟨h', hh'⟩]
  exact pad2_inj hh hh' (String.ext (List.append_inj htail hlen).1)

/-- C8 (amended): each artifact path is a pure function of its key, and
keys differing in run tag, horizon (two-digit range) or *sanitized*
location name map to distinct paths; trace artifacts and wind-map
artifacts never share a path.  (Injectivity in the raw location name fails
because `sanitize_name` is not injective.) -/
theorem artifact_path_function_of_key :
    (∀ (tag tag' n n' : String) (h h' : Nat), h < 100 → h' < 100 →
      tracePath tag n h = tracePath tag' n' h' →
      tag = tag' ∧ sanitize_name n = sanitize_name n' ∧ h = h') ∧
    (∀ (tag tag' : String) (h h' : Nat), h < 100 → h' < 100 →
      mapPath tag h = mapPath tag' h' → tag = tag' ∧ h = h') ∧
    (∀ (tag n : String) (h : Nat) (tag' : String) (h' : Nat),
      tracePath tag n h ≠ mapPath tag' h') := by
  refine ⟨?_, ?_, ?_⟩
  · intro tag tag' n n' h h' hh hh' he
    simp only [tracePath, List.cons.injEq, and_true] at he
    obtain ⟨-, htag, hsan, hf⟩ := he
    exact ⟨htag, hsan, affix_pad2_inj "H" ".nc" hh hh' hf⟩
  · intro tag tag' h h' hh hh' he
    simp only [mapPath, List.cons.injEq, and_true] at he
    obtain ⟨-, htag, hf⟩ := he
    exact ⟨htag, affix_pad2_inj "wind_maps_H" ".nc" hh hh' hf⟩
  · intro tag n h tag' h' he
    have hlen := congrArg List.length he
    simp [tracePath, mapPath] at hlen

/-- Witness for `artifact_path_function_of_key`. -/
theorem artifact_path_function_of_key_witness :
    "20240101_0000" = "20240101_0000" ∧ (3 : Nat) = 3 :=
  artifact_path_function_of_key.2.1 "20240101_0000" "20240101_0000" 3 3
    (by decide) (by decide) rfl

/-- `List.getD` at an in-range index is the indexed element. -/
theorem getD_eq_getElem_of_lt {α : Type} (l : List α) (d : α) {k : Nat}
    (hk : k < l.length) : l.getD k d = l[k] := by
  simp [List.getElem?_eq_getElem hk]

/-- C5: for an interface-height array of `n + 1` vertical rows over `m`
cells, the full-level height at layer `i` is the arithmetic mean of the
interface heights at `i` and `i + 1`; in the AGL frame the surface height
(the last interface row, per cell) is subtracted from every full level,
while the AMSL frame uses the full-level heights unchanged. -/
theorem vertical_heights :
    ∀ (hhl : List (List ℚ)) (n m i j : Nat),
      hhl.length = n + 1 → (∀ r ∈ hhl, r.length = m) → i < n → j < m →
      (z_f hhl).length = n ∧
      ix2 (z_f hhl) i j = (ix2 hhl i j + ix2 hhl (i + 1) j) / 2 ∧
      ix2 (field_z_AGL hhl) i j = ix2 (z_f hhl) i j - ix2 hhl n j ∧
      field_z_AMSL hhl = z_f hhl := by
  intro hhl n m i j hlen hrect hi hj
  have hzlen : (z_f hhl).length = n := by
    simp [z_f, hlen]
  have hilt : i < hhl.length := by omega
  have hi1lt : 1 + i < hhl.length := by omega
  have hnlt : n < hhl.length := by omega
  have hri : hhl[i].length = m := hrect _ (hhl.getElem_mem hilt)
  have hri1 : hhl[1 + i].length = m := hrect _ (hhl.getElem_mem hi1lt)
  have hrn : hhl[n].length = m := hrect _ (hhl.getElem_mem hnlt)
  have hizl : i < (z_f hhl).length := by omega
  have e1 : (z_f hhl)[i] =
      List.zipWith (fun a b => (a + b) / 2) hhl[i] hhl[1 + i] := by
    simp only [z_f, List.getElem_zipWith, List.getElem_dropLast, List.getElem_drop]
  have hrowlen : (z_f hhl)[i].length = m := by
    rw [e1]; simp [hri, hri1]
  have hjz : j < ((z_f hhl)[i]).length := by omega
  have hji : j < (hhl[i]).length := by omega
  have hji1 : j < (hhl[1 + i]).length := by omega
  have hjn : j < (hhl[n]).length := by omega
  have ezf0 : ix2 (z_f hhl) i j = ((z_f hhl)[i])[j] := by
    show ((z_f hhl).getD i []).getD j 0 = _
    rw [getD_eq_getElem_of_lt _ _ hizl]
    exact getD_eq_getElem_of_lt _ _ (by rw [hrowlen]; exact hj)
  have ezf : ix2 (z_f hhl) i j = (hhl[i][j] + hhl[1 + i][j]) / 2 := by
    rw [ezf0]
    simp only [e1, List.getElem_zipWith]
  have exi : ix2 hhl i j = hhl[i][j] := by
    show (hhl.getD i []).getD j 0 = _
    rw [getD_eq_getElem_of_lt _ _ hilt]
    exact getD_eq_getElem_of_lt _ _ (by rw [hri]; exact hj)
  have exi1 : ix2 hhl (i + 1) j = hhl[1 + i][j] := by
    show (hhl.getD (i + 1) []).getD j 0 = _
    have e : i + 1 = 1 + i := by omega
    rw [e, getD_eq_getElem_of_lt _ _ hi1lt]
    exact getD_eq_getElem_of_lt _ _ (by rw [hri1]; exact hj)
  have exn : ix2 hhl n j = hhl[n][j] := by
    show (hhl.getD n []).getD j 0 = _
    rw [getD_eq_getElem_of_lt _ _ hnlt]
    exact getD_eq_getElem_of_lt _ _ (by rw [hrn]; exact hj)
  have hsurf_eq : h_surf hhl = hhl[n] := by
    rw [h_surf, List.getLastD_eq_getLast?, List.getLast?_eq_getElem?]
    have e : hhl.length - 1 = n := by omega
    rw [e, List.getElem?_eq_getElem hnlt]
    rfl
  have hsurflen : (h_surf hhl).length = m := by rw [hsurf_eq]; exact hrn
  have eagl : ix2 (field_z_AGL hhl) i j = ix2 (z_f hhl) i j - ix2 hhl n j := by
    have hmlen : i < (field_z_AGL hhl).length := by
      simp only [field_z_AGL, List.length_map]
      omega
    have e2 : (field_z_AGL hhl)[i] =
        List.zipWith (fun a b => a - b) ((z_f hhl)[i]) (h_surf hhl) := by
      simp only [field_z_AGL, List.getElem_map]
    have hrowlen2 : ((field_z_AGL hhl)[i]).length = m := by
      rw [e2]
      simp [hrowlen, hsurflen]
    show ((field_z_AGL hhl).getD i []).getD j 0 = _
    rw [getD_eq_getElem_of_lt _ _ hmlen,
      getD_eq_getElem_of_lt _ _ (by rw [hrowlen2]; exact hj)]
    simp only [e2, List.getElem_zipWith]
    rw [ezf0, exn]
    congr 1
    simp only [hsurf_eq]
  exact ⟨hzlen, by rw [ezf, exi, exi1], eagl, rfl⟩

/-- Witness for `vertical_heights` on a 3-interface, 2-cell column set. -/
theorem vertical_heights_witness :
    (z_f [[0, 10], [2, 20], [4, 40]]).length = 2 ∧
    ix2 (z_f [[0, 10], [2, 20], [4, 40]]) 1 0 =
      (ix2 [[0, 10], [2, 20], [4, 40]] 1 0 +
        ix2 [[0, 10], [2, 20], [4, 40]] (1 + 1) 0) / 2 ∧
    ix2 (field_z_AGL [[0, 10], [2, 20], [4, 40]]) 1 0 =
      ix2 (z_f [[0, 10], [2, 20], [4, 40]]) 1 0 -
        ix2 [[0, 10], [2, 20], [4, 40]] 2 0 ∧
    field_z_AMSL [[0, 10], [2, 20], [4, 40]] = z_f [[0, 10], [2, 20], [4, 40]] :=
  vertical_heights [[0, 10], [2, 20], [4, 40]] 2 2 1 0 rfl (by decide)
    (by decide) (by decide)

/-- C6 counterexample: over the 2×2 structured grid with row-major
latitudes `[0,0,1,1]` and longitudes `[0,1,0,1]`, the target `(1,0)`
coincides with cell `(row 1, col 0)`; the code's locator yields the flat
index 2 (it never unravels), while the spec's locator yields the pair
`(1, 0)` — the two disagree on every 2-D grid whose flat minimum is not
in row zero. -/
theorem locator_2d_counterexample :
    resolve_code ⟨[2, 2], [0, 0, 1, 1], [0, 1, 0, 1]⟩ 1 0 = .flat 2 ∧
    resolve_spec ⟨[2, 2], [0, 0, 1, 1], [0, 1, 0, 1]⟩ 1 0 = .pair 1 0 ∧
    CellIndex.flat 2 ≠ CellIndex.pair 1 0 := by
  have hd : sq_dists [0, 0, 1, 1] [0, 1, 0, 1] 1 0 = [1, 2, 0, 1] := by
    norm_num [sq_dists]
  have ha : np_argmin (sq_dists [0, 0, 1, 1] [0, 1, 0, 1] 1 0) = 2 := by
    rw [hd]
    decide
  refine ⟨?_, ?_, by decide⟩
  · show CellIndex.flat (np_argmin (sq_dists [0, 0, 1, 1] [0, 1, 0, 1] 1 0)) = _
    rw [ha]
  · show CellIndex.pair
        (np_argmin (sq_dists [0, 0, 1, 1] [0, 1, 0, 1] 1 0) / 2)
        (np_argmin (sq_dists [0, 0, 1, 1] [0, 1, 0, 1] 1 0) % 2) = _
    rw [ha]

/-- `np.argmin` characterisation: for a nonempty list it returns a valid
index achieving the global minimum, and every strictly earlier index holds
a strictly larger value (first-occurrence tie-break). -/
theorem np_argmin_spec (l : List ℚ) (hne : l ≠ []) :
    np_argmin l < l.length ∧
    (∀ k, k < l.length → l.getD (np_argmin l) 0 ≤ l.getD k 0) ∧
    (∀ k, k < np_argmin l → l.getD (np_argmin l) 0 < l.getD k 0) := by
  obtain ⟨m, hm⟩ : ∃ m, l.min? = some m := by
    cases h : l.min? with
    | none => exact absurd (List.min?_eq_none_iff.mp h) hne
    | some m => exact ⟨m, rfl⟩
  have hmem : m ∈ l := List.min?_mem (fun a b => min_choice a b) hm
  have hle : ∀ b ∈ l, m ≤ b := by
    intro b hb
    exact ((List.le_min?_iff (fun a b c => le_min_iff) hm).mp (le_refl m)) b hb
  have hdef : np_argmin l = l.findIdx (fun x => decide (x ≤ m)) := by
    rw [np_argmin, hm]
  have hex : ∃ x ∈ l, (fun x => decide (x ≤ m)) x = true := ⟨m, hmem, by simp⟩
  have hlt : l.findIdx (fun x => decide (x ≤ m)) < l.length :=
    List.findIdx_lt_length_of_exists hex
  have hlt2 : np_argmin l < l.length := by rw [hdef]; exact hlt
  have hpi : l[l.findIdx (fun x => decide (x ≤ m))] ≤ m := by
    have hp := @List.findIdx_getElem _ (fun x => decide (x ≤ m)) l hlt
    simpa using hp
  have hvm : l[l.findIdx (fun x => decide (x ≤ m))] = m :=
    le_antisymm hpi (hle _ (l.getElem_mem hlt))
  have hvmD : l.getD (np_argmin l) 0 = m := by
    rw [getD_eq_getElem_of_lt _ _ hlt2]
    calc l[np_argmin l] = l[l.findIdx (fun x => decide (x ≤ m))] := by
          congr 1
      _ = m := hvm
  refine ⟨hlt2, ?_, ?_⟩
  · intro k hk
    rw [hvmD, getD_eq_getElem_of_lt _ _ hk]
    exact hle _ (l.getElem_mem hk)
  · intro k hk
    have hk2 : k < l.findIdx (fun x => decide (x ≤ m)) := by rw [← hdef]; exact hk
    have hkl : k < l.length := by omega
    have hnp := List.not_of_lt_findIdx hk2
    have : ¬ (l[k] ≤ m) := by simpa using hnp
    rw [hvmD, getD_eq_getElem_of_lt _ _ hkl]
    exact lt_of_not_le this

/-- C6 (amended): the locator always produces a single flat integer — the
position of the first global minimum of squared degree distance over the
row-major-flattened coordinate arrays — for 2-D arrays as well (no
(row, column) unraveling, third conjunct); for a target coinciding with
the unique matching cell `k` it returns exactly `k` (first conjunct); the
returned index attains the global minimum and ties break to the first
occurrence (second conjunct, via `np_argmin_spec`). -/
theorem locator_flat_first_min :
    (∀ (lats lons : List ℚ) (plat plon : ℚ) (k : Nat),
      lats.length = lons.length → k < lats.length →
      lats.getD k 0 = plat → lons.getD k 0 = plon →
      (∀ j, j < lats.length → j ≠ k →
        ¬ (lats.getD j 0 = plat ∧ lons.getD j 0 = plon)) →
      np_argmin (sq_dists lats lons plat plon) = k) ∧
    (∀ (l : List ℚ), l ≠ [] →
      (∀ k, k < l.length → l.getD (np_argmin l) 0 ≤ l.getD k 0) ∧
      (∀ k, k < np_argmin l → l.getD (np_argmin l) 0 < l.getD k 0)) ∧
    (∀ (shape : List Nat) (lats lons : List ℚ) (plat plon : ℚ),
      resolve_code ⟨shape, lats, lons⟩ plat plon =
        .flat (np_argmin (sq_dists lats lons plat plon))) := by
  refine ⟨?_, fun l hl => ⟨(np_argmin_spec l hl).2.1, (np_argmin_spec l hl).2.2⟩, fun _ _ _ _ _ => rfl⟩
  intro lats lons plat plon k hlen hk hla hlo huniq
  set d := sq_dists lats lons plat plon with hd
  have hdlen : d.length = lats.length := by
    simp [hd, sq_dists, hlen]
  have hdk : ∀ j, j < lats.length → d.getD j 0 =
      (lats.getD j 0 - plat) ^ 2 + (lons.getD j 0 - plon) ^ 2 := by
    intro j hj
    have hj2 : j < lons.length := by omega
    have hjd : j < d.length := by omega
    rw [getD_eq_getElem_of_lt _ _ hjd, getD_eq_getElem_of_lt _ _ hj,
      getD_eq_getElem_of_lt _ _ hj2]
    simp [hd, sq_dists, List.getElem_zipWith]
  have hdk0 : d.getD k 0 = 0 := by
    rw [hdk k hk, hla, hlo]
    ring
  have hdpos : ∀ j, j < lats.length → j ≠ k → 0 < d.getD j 0 := by
    intro j hj hjk
    rw [hdk j hj]
    rcases lt_or_eq_of_le (by positivity :
        (0 : ℚ) ≤ (lats.getD j 0 - plat) ^ 2 + (lons.getD j 0 - plon) ^ 2) with h | h
    · exact h
    · exfalso
      have h0 := h.symm
      have hz : lats.getD j 0 - plat = 0 ∧ lons.getD j 0 - plon = 0 := by
        constructor
        · have := (add_eq_zero_iff_of_nonneg (sq_nonneg _) (sq_nonneg _)).mp h0
          exact (pow_eq_zero_iff two_ne_zero).mp this.1
        · have := (add_eq_zero_iff_of_nonneg (sq_nonneg _) (sq_nonneg _)).mp h0
          exact (pow_eq_zero_iff two_ne_zero).mp this.2
      exact huniq j hj hjk ⟨by linarith [hz.1], by linarith [hz.2]⟩
  have hdne : d ≠ [] := by
    intro h
    rw [h] at hdlen
    simp at hdlen
    omega
  obtain ⟨hnp, hmin, hfirst⟩ := np_argmin_spec d hdne
  by_contra hne2
  have hnpl : np_argmin d < lats.length := by omega
  have hpos := hdpos (np_argmin d) hnpl hne2
  have hmk := hmin k (by omega)
  rw [hdk0] at hmk
  linarith

/-- Witness for `locator_flat_first_min`: a 1-D grid with the target on
cell 2 resolves to flat index 2. -/
theorem locator_flat_first_min_witness :
    np_argmin (sq_dists [46, 47, 48] [8, 9, 10] 48 10) = 2 :=
  locator_flat_first_min.1 [46, 47, 48] [8, 9, 10] 48 10 2 rfl (by decide)
    (by decide) (by decide) (by decide)

/-- The last element of a nonempty list is a member. -/
theorem getLastD_mem_of_ne_nil {α : Type} (l : List α) (d : α) (h : l ≠ []) :
    l.getLastD d ∈ l := by
  have h1 : l.getLast? = some (l.getLast h) :=
    Option.mem_def.mp (List.getLast_mem_getLast? h)
  rw [List.getLastD_eq_getLast?, h1]
  exact List.getLast_mem h

/-- A horizon whose last-location trace artifact and wind-map artifact
both exist is skipped without any write, catalog call or download. -/
theorem run_horizon_skip (env : PipelineEnv) (cache : Cache) (h : Nat)
    (ht : cache.contains (tracePath env.time_tag (env.locations.getLastD "") h) = true)
    (hm : cache.contains (mapPath env.time_tag h) = true) :
    run_horizon env cache h = (cache, ⟨[], [], []⟩) := by
  have hcond :
      (!(!cache.contains (tracePath env.time_tag (env.locations.getLastD "") h)) &&
        !(!cache.contains (mapPath env.time_tag h))) = true := by
    rw [ht, hm]
    rfl
  simp only [run_horizon]
  rw [if_pos hcond]

/-- Every file a horizon writes was absent from the cache it started
from. -/
theorem run_horizon_no_overwrite (env : PipelineEnv) (cache : Cache) (h : Nat)
    (p : List String) (hp : p ∈ (run_horizon env cache h).2.writes) :
    cache.contains p = false := by
  have hsub : ∀ (c : Prop) (inst : Decidable c) (w : Cache),
      p ∈ (@ite _ c inst w []) → p ∈ w := by
    intro c inst w hpw
    by_cases hc : c
    · rwa [if_pos hc] at hpw
    · rw [if_neg hc] at hpw
      exact absurd hpw (List.not_mem_nil p)
  have htr : p ∈ trace_writes env cache h → cache.contains p = false := by
    intro h1
    simp only [trace_writes, List.mem_map, List.mem_filter] at h1
    obtain ⟨loc, ⟨-, hflt⟩, rfl⟩ := h1
    simpa using hflt
  have hmw : p ∈ map_writes env cache h → cache.contains p = false := by
    intro h1
    simp only [map_writes] at h1
    by_cases hc : cache.contains (mapPath env.time_tag h) = true
    · rw [if_pos hc] at h1
      exact absurd h1 (List.not_mem_nil p)
    · rw [if_neg hc] at h1
      rw [List.mem_singleton.mp h1]
      simpa using hc
  simp only [run_horizon] at hp
  split at hp
  · simp at hp
  · rcases List.mem_append.mp hp with h1 | h1
    · exact htr (hsub _ _ _ h1)
    · exact hmw (hsub _ _ _ h1)

/-- C1: (first conjunct) if every trace artifact of every location and
every wind-map artifact of the run's horizons already exist in the cache,
a pipeline execution performs zero artifact writes, zero catalog calls and
zero asset downloads, and leaves the cache unchanged; (second conjunct)
the driver skips a horizon entirely — before any provider interaction —
as soon as the last location's trace artifact and the wind-map artifact
exist; (third conjunct) no execution ever writes a file that already
exists. -/
theorem pipeline_idempotent :
    (∀ (env : PipelineEnv) (cache : Cache) (hs : List Nat),
      env.locations ≠ [] →
      (∀ h ∈ hs, cache.contains (mapPath env.time_tag h) = true ∧
        ∀ loc ∈ env.locations,
          cache.contains (tracePath env.time_tag loc h) = true) →
      run_pipeline env cache hs = (cache, ⟨[], [], []⟩)) ∧
    (∀ (env : PipelineEnv) (cache : Cache) (h : Nat),
      cache.contains (tracePath env.time_tag (env.locations.getLastD "") h) = true →
      cache.contains (mapPath env.time_tag h) = true →
      run_horizon env cache h = (cache, ⟨[], [], []⟩)) ∧
    (∀ (env : PipelineEnv) (cache : Cache) (h : Nat) (p : List String),
      p ∈ (run_horizon env cache h).2.writes → cache.contains p = false) := by
  refine ⟨?_, run_horizon_skip, run_horizon_no_overwrite⟩
  intro env cache hs hne hfull
  induction hs with
  | nil => rfl
  | cons h rest ih =>
    have hh := hfull h (List.mem_cons_self h rest)
    have ht : cache.contains
        (tracePath env.time_tag (env.locations.getLastD "") h) = true :=
      hh.2 _ (getLastD_mem_of_ne_nil env.locations "" hne)
    have hskip := run_horizon_skip env cache h ht hh.1
    have ihr := ih (fun x hx => hfull x (List.mem_cons_of_mem h hx))
    simp only [run_pipeline, hskip, ihr]
    rfl

/-- Witness for `pipeline_idempotent`: a second execution over the fully
populated `pipeCacheW` does nothing. -/
theorem pipeline_idempotent_witness :
    run_pipeline pipeEnvW pipeCacheW [0] = (pipeCacheW, ⟨[], [], []⟩) :=
  pipeline_idempotent.1 pipeEnvW pipeCacheW [0] (by decide) (by decide)

end FetchData
